import Mathlib

/-!
Shallow embedding of the knowledge-relevance-detector scoring core.

Sources:
  * `src/unnamed/part_000` (two concatenated modules: the simple lexical
    relevance algorithm, and the NER/topic-modeling relevance algorithm);
  * `src/utils/llmEnhancedRelevanceAlgorithm.js` (the LLM-enhanced pipeline).

The lexical helpers `extractKeywords`, `extractSimpleEntities` and
`calculateOverlap` appear with identical bodies in both the simple module and
`llmEnhancedRelevanceAlgorithm.js`; they are embedded once and shared.

Numeric model: JavaScript numbers are modelled as exact rationals (`ℚ`) for
the pure set/frequency arithmetic, and as reals (`ℝ`) where the source takes
square roots (`Math.sqrt` in `cosineSimilarity` and
`calculateTopicSimilarity`).  Strings are Lean `String`s; the ASCII character
classes of the JS regexes are modelled on `Char`.
-/

namespace RelevanceDetector

/-! ### Character classes of the JS regexes (ASCII) -/

/-- JS `String.prototype.toLowerCase` (ASCII): lowercase every character.
(Equivalent to `String.toLower`, but defined by structural recursion over the
character list so that concrete instances evaluate.) -/
def toLowerStr (s : String) : String :=
  ⟨s.data.map Char.toLower⟩

/-- JS `\w`, i.e. `[A-Za-z0-9_]`. -/
def isWordChar (c : Char) : Bool :=
  c.isAlpha || c.isDigit || c == '_'

/-- JS `\s` (the whitespace characters that occur in practice). -/
def isSpaceChar (c : Char) : Bool :=
  c == ' ' || c == '\t' || c == '\n' || c == '\r'

/-! ### Tokenizer (`extractKeywords`, steps 1–2)

`text.toLowerCase().replace(/[^\w\s]/g, '')` followed by `split(/\s+/)`.
`String.split(/\s+/)` in JS yields the (possibly empty) segments between
maximal whitespace runs, including a leading/trailing empty segment when the
string starts/ends with whitespace, and `[""]` on the empty string. -/

/-- Lowercase the text and delete every character that is neither a word
character nor whitespace (`replace(/[^\w\s]/g, '')`). -/
def cleanText (text : String) : List Char :=
  (text.toList.map Char.toLower).filter fun c => isWordChar c || isSpaceChar c

mutual

/-- Segment accumulator for `split(/\s+/)`: `cur` holds the current segment
in reverse. -/
def splitWsAux (cur : List Char) : List Char → List (List Char)
  | [] => [cur.reverse]
  | c :: cs =>
    if isSpaceChar c then cur.reverse :: splitWsSkip cs
    else splitWsAux (c :: cur) cs

/-- Consume the remainder of a whitespace run, then start a new segment. -/
def splitWsSkip : List Char → List (List Char)
  | [] => [[]]
  | c :: cs => if isSpaceChar c then splitWsSkip cs else splitWsAux [c] cs

end

/-- `split(/\s+/)` on a character list, as strings. -/
def splitWs (l : List Char) : List String :=
  (splitWsAux [] l).map fun cs => ⟨cs⟩

/-- The fixed stop-word set of the source (identical in both modules). -/
def stopWords : List String :=
  ["a", "an", "the", "and", "or", "but", "is", "are", "was", "were",
   "be", "been", "being", "have", "has", "had", "do", "does", "did",
   "to", "from", "in", "out", "on", "off", "over", "under", "again",
   "further", "then", "once", "here", "there", "when", "where", "why",
   "how", "all", "any", "both", "each", "few", "more", "most", "other",
   "some", "such", "no", "nor", "not", "only", "own", "same", "so",
   "than", "too", "very", "can", "will", "just", "should", "now"]

/-- The cleaned token sequence fed into the frequency count: lowercased,
punctuation stripped, whitespace split, stop words and words of length ≤ 2
removed. -/
def keywordsOf (text : String) : List String :=
  (splitWs (cleanText text)).filter fun word =>
    !stopWords.contains word && word.length > 2

/-! ### Frequency mapping (`wordFrequency`)

`wordFrequency` is a plain JS object.  Property creation order is insertion
(first-seen) order of the tokens, modelled as an association list to which
new keys are appended.  `Object.entries`, however, follows the ECMAScript
own-property enumeration order: keys that are array indices (the canonical
decimal string of an integer `0 ≤ n < 2^32 - 1`, no leading zeros) come
first in ascending numeric order, and the remaining string keys follow in
creation order. -/

/-- `wordFrequency[word] = (wordFrequency[word] || 0) + 1`. -/
def bump (l : List (String × Nat)) (w : String) : List (String × Nat) :=
  if l.any fun p => p.1 == w then
    l.map fun p => if p.1 == w then (p.1, p.2 + 1) else p
  else
    l ++ [(w, 1)]

/-- The entries of `wordFrequency`, in insertion (first-seen) order —
the object's property *creation* order. -/
def freqEntries (ws : List String) : List (String × Nat) :=
  ws.foldl bump []

/-- Numeric value of a digit string. -/
def digitsToNat (cs : List Char) : Nat :=
  cs.foldl (fun n c => n * 10 + (c.toNat - 48)) 0

/-- ECMAScript array-index key: the canonical decimal representation of an
integer `0 ≤ n < 2^32 - 1` (all digits, no leading zero except `"0"`
itself, value below `2^32 - 1`). -/
def isArrayIndex (s : String) : Bool :=
  match s.data with
  | [] => false
  | c :: cs =>
    (c :: cs).all Char.isDigit && (c != '0' || cs.isEmpty) &&
      digitsToNat (c :: cs) < 4294967295

/-- Ascending numeric order on array-index keys. -/
def numKeyLe (a b : String × Nat) : Prop :=
  digitsToNat a.1.data ≤ digitsToNat b.1.data

instance : DecidableRel numKeyLe := fun a b =>
  inferInstanceAs (Decidable (digitsToNat a.1.data ≤ digitsToNat b.1.data))

instance : IsTotal (String × Nat) numKeyLe :=
  ⟨fun a b => Nat.le_total (digitsToNat a.1.data) (digitsToNat b.1.data)⟩

instance : IsTrans (String × Nat) numKeyLe :=
  ⟨fun _ _ _ h1 h2 => Nat.le_trans h1 h2⟩

/-- The entry list produced by `Object.entries(wordFrequency)`: array-index
keys first in ascending numeric order, then the remaining keys in creation
(first-seen) order. -/
def jsEntries (l : List (String × Nat)) : List (String × Nat) :=
  List.insertionSort numKeyLe (l.filter fun p => isArrayIndex p.1) ++
    l.filter fun p => !isArrayIndex p.1

/-- The sort order of `.sort((a, b) => b[1] - a[1])`: descending counts.
`Array.prototype.sort` is stable, which `List.insertionSort` with this
(total, transitive) relation reproduces. -/
def freqGe (a b : String × Nat) : Prop := b.2 ≤ a.2

instance : DecidableRel freqGe := fun a b => inferInstanceAs (Decidable (b.2 ≤ a.2))

instance : IsTotal (String × Nat) freqGe := ⟨fun a b => Nat.le_total b.2 a.2⟩

instance : IsTrans (String × Nat) freqGe := ⟨fun _ _ _ h1 h2 => Nat.le_trans h2 h1⟩

/-- `extractKeywords` (identical in the simple and LLM modules):
`Object.entries` of the frequency mapping (ECMAScript enumeration order),
stable descending sort by count, first 15, keys only. -/
def extractKeywords (text : String) : List String :=
  ((List.insertionSort freqGe (jsEntries (freqEntries (keywordsOf text)))).take 15).map
    Prod.fst

/-! ### `calculateOverlap` (identical in the simple and LLM modules) -/

/-- `calculateOverlap`: 0 if either array is empty, otherwise the Jaccard
similarity of the two sets of lowercased elements.  A JS `Set` holds the
distinct elements, modelled by `List.dedup` (only size and membership of the
sets are used). -/
def calculateOverlap (array1 array2 : List String) : ℚ :=
  if array1.length = 0 ∨ array2.length = 0 then 0
  else
    let set1 := (array1.map toLowerStr).dedup
    let set2 := (array2.map toLowerStr).dedup
    let intersection := set1.filter fun item => set2.contains item
    let union := (set1 ++ set2).dedup
    (intersection.length : ℚ) / (union.length : ℚ)

/-- Jaccard similarity of two finite sets, as §3/§4.4 of the specification
word it: `|A ∩ B| / |A ∪ B|`.  Used to compare `calculateOverlap` against
the specification. -/
def jaccardSpec (A B : Finset String) : ℚ :=
  ((A ∩ B).card : ℚ) / ((A ∪ B).card : ℚ)

/-! ### The regex scanners of `extractSimpleEntities`

`String.prototype.match` with a global regex scans the string left to right,
at each index trying the pattern (alternatives in order, quantifiers greedy
with backtracking), emitting the first successful candidate and resuming
after it, otherwise advancing one character.  A pattern is embedded as a
function producing all `(consumed, rest)` candidates in backtracking
priority order; matching takes the first candidate that also satisfies a
trailing `\b`. -/

/-- A pattern: every way to match a prefix of the input, in the order the
regex engine would try them. -/
abbrev RMatch := List Char → List (List Char × List Char)

/-- Match a single character of a class. -/
def pClass (p : Char → Bool) : RMatch := fun l =>
  match l with
  | c :: cs => if p c then [([c], cs)] else []
  | [] => []

/-- Match the empty string. -/
def pEmpty : RMatch := fun l => [([], l)]

/-- Concatenation; the left pattern's candidates are exhausted in order,
as in regex backtracking. -/
def pSeq (m1 m2 : RMatch) : RMatch := fun l =>
  (m1 l).flatMap fun pr => (m2 pr.2).map fun qr => (pr.1 ++ qr.1, qr.2)

/-- Alternation `x|y`: all candidates of `x` before any of `y`. -/
def pAlt (m1 m2 : RMatch) : RMatch := fun l => m1 l ++ m2 l

/-- Greedy option `x?`: with `x` first. -/
def pOpt (m : RMatch) : RMatch := pAlt m pEmpty

/-- Literal-sequence helper; `ci` compares case-insensitively against a
lowercase pattern (the `i` flag). -/
def pLitAux (ci : Bool) : List Char → List Char → Option (List Char × List Char)
  | [], l => some ([], l)
  | _ :: _, [] => none
  | p :: ps, c :: cs =>
    if (if ci then c.toLower == p else c == p) then
      (pLitAux ci ps cs).map fun r => (c :: r.1, r.2)
    else none

/-- Match a literal string. -/
def pLit (ci : Bool) (s : List Char) : RMatch := fun l =>
  match pLitAux ci s l with
  | some r => [r]
  | none => []

/-- Greedy `p+` for a character class: the maximal run first, then each
shorter nonempty prefix of it. -/
def pPlusCls (p : Char → Bool) : RMatch := fun l =>
  let run := l.takeWhile p
  (List.range run.length).map fun i =>
    let k := run.length - i
    (l.take k, l.drop k)

/-- `p{n}` for a character class: exactly `n` characters. -/
def pRepExact (p : Char → Bool) (n : Nat) : RMatch := fun l =>
  let pre := l.take n
  if pre.length = n && pre.all p then [(pre, l.drop n)] else []

/-- Greedy `p{lo,hi}` for a character class: `hi` characters first, down
to `lo`. -/
def pRepRange (p : Char → Bool) (lo hi : Nat) : RMatch := fun l =>
  let run := l.takeWhile p
  (List.range (hi - lo + 1)).filterMap fun i =>
    let k := hi - i
    if k ≤ run.length then some (l.take k, l.drop k) else none

/-- Greedy `x*`, with at most `fuel` repetitions (callers pass the input
length, which no match can exceed): most repetitions first. -/
def pStar (m : RMatch) : Nat → RMatch
  | 0 => pEmpty
  | fuel + 1 => pAlt (pSeq m (pStar m fuel)) pEmpty

/-- Word-ness of an optional character (`none` at the ends of the input). -/
def wordAt : Option Char → Bool
  | some c => isWordChar c
  | none => false

/-- `\b`: a word character on exactly one side. -/
def boundaryB (prev next : Option Char) : Bool :=
  wordAt prev != wordAt next

/-- One top-level regex alternative: an optional leading `\b`, a body, and
an optional trailing `\b`. -/
structure RAlt where
  startB : Bool
  body : RMatch
  endB : Bool

/-- Try one alternative at the current position (`prev` is the character
before it): the first body candidate that passes the trailing `\b`. -/
def tryAlt (alt : RAlt) (prev : Option Char) (l : List Char) : Option (List Char × List Char) :=
  if alt.startB && !boundaryB prev l.head? then none
  else
    let cands := alt.body l
    let ok := if alt.endB then
        cands.filter fun pr => boundaryB pr.1.getLast? pr.2.head?
      else cands
    ok.head?

/-- Try the alternatives in order at the current position. -/
def tryAlts (alts : List RAlt) (prev : Option Char) (l : List Char) :
    Option (List Char × List Char) :=
  match alts with
  | [] => none
  | a :: rest =>
    match tryAlt a prev l with
    | some r => some r
    | none => tryAlts rest prev l

/-- The global scan: emit a match and resume after it, otherwise advance one
character.  Every match consumes at least one character, so `fuel` = input
length + 1 suffices. -/
def scanAux (alts : List RAlt) : Nat → Option Char → List Char → List (List Char)
  | 0, _, _ => []
  | fuel + 1, prev, l =>
    match l with
    | [] => []
    | c :: cs =>
      match tryAlts alts prev l with
      | some (m, rest) => m :: scanAux alts fuel m.getLast? rest
      | none => scanAux alts fuel (some c) cs

/-- `text.match(regex) || []` for a global regex given as alternatives. -/
def scanRegex (alts : List RAlt) (text : List Char) : List String :=
  (scanAux alts (text.length + 1) none text).map fun cs => ⟨cs⟩

/-! #### The four patterns of `extractSimpleEntities` -/

/-- `[A-Z][a-z]+`: one capitalized word. -/
def capWord : RMatch := pSeq (pClass Char.isUpper) (pPlusCls Char.isLower)

/-- `/\b[A-Z][a-z]+ (?:[A-Z][a-z]+ )*[A-Z][a-z]+\b/g`. -/
def properNounAlts (fuel : Nat) : List RAlt :=
  [⟨true,
    pSeq capWord (pSeq (pLit false [' '])
      (pSeq (pStar (pSeq capWord (pLit false [' '])) fuel) capWord)),
    true⟩]

/-- The twelve month alternatives `Jan(?:uary)?|…|Dec(?:ember)?`, in source
order (case-insensitive). -/
def monthPat : RMatch :=
  [("jan", "uary"), ("feb", "ruary"), ("mar", "ch"), ("apr", "il"),
   ("may", ""), ("jun", "e"), ("jul", "y"), ("aug", "ust"),
   ("sep", "tember"), ("oct", "ober"), ("nov", "ember"), ("dec", "ember")]
    |>.foldr (fun (pr : String × String) acc =>
        pAlt (if pr.2.isEmpty then pLit true pr.1.toList
              else pSeq (pLit true pr.1.toList) (pOpt (pLit true pr.2.toList))) acc)
      (fun _ => [])

/-- `(?:st|nd|rd|th)` (case-insensitive under the `i` flag). -/
def ordinalPat : RMatch :=
  pAlt (pLit true ['s', 't'])
    (pAlt (pLit true ['n', 'd']) (pAlt (pLit true ['r', 'd']) (pLit true ['t', 'h'])))

/-- The date regex: month-name dates or `\d{1,2}/\d{1,2}/\d{2,4}`, both
bounded by `\b`. -/
def dateAlts : List RAlt :=
  [⟨true,
    pSeq monthPat (pSeq (pPlusCls isSpaceChar)
      (pSeq (pRepRange Char.isDigit 1 2) (pSeq (pOpt ordinalPat)
        (pSeq (pOpt (pLit false [','])) (pSeq (pPlusCls isSpaceChar)
          (pRepExact Char.isDigit 4)))))),
    true⟩,
   ⟨true,
    pSeq (pRepRange Char.isDigit 1 2) (pSeq (pLit false ['/'])
      (pSeq (pRepRange Char.isDigit 1 2) (pSeq (pLit false ['/'])
        (pRepRange Char.isDigit 2 4)))),
    true⟩]

/-- `(?:\.\d+)?`: an optional decimal fraction. -/
def fracPat : RMatch :=
  pOpt (pSeq (pLit false ['.']) (pPlusCls Char.isDigit))

/-- The statistics regex `\b\d+(?:\.\d+)?%\b|\b\d+(?:\.\d+)? percent\b`. -/
def statsAlts : List RAlt :=
  [⟨true, pSeq (pPlusCls Char.isDigit) (pSeq fracPat (pLit false ['%'])), true⟩,
   ⟨true,
    pSeq (pPlusCls Char.isDigit) (pSeq fracPat
      (pLit true [' ', 'p', 'e', 'r', 'c', 'e', 'n', 't'])),
    true⟩]

/-- `(?:,\d{3})*`: thousands groups. -/
def thousandsPat (fuel : Nat) : RMatch :=
  pStar (pSeq (pLit false [',']) (pRepExact Char.isDigit 3)) fuel

/-- `(?:\.\d{2})?`: optional cents. -/
def centsPat : RMatch :=
  pOpt (pSeq (pLit false ['.']) (pRepExact Char.isDigit 2))

/-- The money regex `\$\d+(?:,\d{3})*(?:\.\d{2})?|\b\d+(?:,\d{3})*(?:\.\d{2})? dollars\b`.
The first alternative carries no `\b` at all. -/
def moneyAlts (fuel : Nat) : List RAlt :=
  [⟨false,
    pSeq (pLit false ['$']) (pSeq (pPlusCls Char.isDigit)
      (pSeq (thousandsPat fuel) centsPat)),
    false⟩,
   ⟨true,
    pSeq (pPlusCls Char.isDigit) (pSeq (thousandsPat fuel)
      (pSeq centsPat (pLit true [' ', 'd', 'o', 'l', 'l', 'a', 'r', 's']))),
    true⟩]

/-- `[...new Set(array)]`: distinct elements in first-occurrence order. -/
def firstDedup (l : List String) : List String :=
  l.foldl (fun acc x => if x ∈ acc then acc else acc ++ [x]) []

/-- `extractSimpleEntities` (identical in the simple and LLM modules): the
four regex scans over the original text, concatenated in source order, with
duplicates removed. -/
def extractSimpleEntities (text : String) : List String :=
  let cs := text.toList
  let fuel := cs.length + 1
  let properNouns := scanRegex (properNounAlts fuel) cs
  let dates := scanRegex dateAlts cs
  let stats := scanRegex statsAlts cs
  let money := scanRegex (moneyAlts fuel) cs
  firstDedup (properNouns ++ dates ++ stats ++ money)

/-! ### Result shape

Each pipeline returns a JS object literal.  An absent field (the simple and
NER modules return no `components`) reads as `undefined` in JS, modelled as
`none`; the LLM module's `components` object is modelled as the key/value
list it literally is. -/

/-- `(x * 100).toFixed(1)`-style formatting of an exact rational (the JS
float rounding noise is not modelled). -/
def formatFixed1Q (q : ℚ) : String :=
  let n : ℤ := round (q * 10)
  toString (n / 10) ++ "." ++ toString (n % 10)

open scoped Classical in
/-- `(x * 100).toFixed(1)`-style formatting of a real. -/
noncomputable def formatFixed1R (x : ℝ) : String :=
  let n : ℤ := round (x * 10)
  toString (n / 10) ++ "." ++ toString (n % 10)

namespace Simple

/-- The object literal returned by the simple module's `calculateRelevance`:
`{ isRelevant, score, explanation }` — it has no `components` field. -/
structure Result where
  isRelevant : Bool
  score : ℚ
  explanation : String
  components : Option (List (String × ℝ))

/-- `generateExplanation` of the simple module. -/
def generateExplanation (primaryKeywords secondaryKeywords primaryEntities
    secondaryEntities : List String) (keywordOverlap entityOverlap relevanceScore : ℚ) :
    String :=
  let sharedKeywords := primaryKeywords.filter fun keyword =>
    secondaryKeywords.contains keyword
  let sharedEntities := primaryEntities.filter fun entity =>
    secondaryEntities.any fun secEntity => toLowerStr secEntity == toLowerStr entity
  let explanation :=
    if relevanceScore > 0.7 then "High relevance detected. "
    else if relevanceScore > 0.3 then "Moderate relevance detected. "
    else "Low relevance detected. "
  let explanation := explanation ++
    (if sharedEntities.length > 0 then
      "Both texts mention the same entities: " ++
        String.intercalate ", " (sharedEntities.take 5) ++
        (if sharedEntities.length > 5 then "..." else "") ++ ". "
     else "")
  let explanation := explanation ++
    (if sharedKeywords.length > 0 then
      "Both texts share keywords related to: " ++
        String.intercalate ", " (sharedKeywords.take 7) ++
        (if sharedKeywords.length > 7 then "..." else "") ++ ". "
     else "")
  explanation ++ "Entity overlap: " ++ formatFixed1Q (entityOverlap * 100) ++ "%. " ++
    "Keyword similarity: " ++ formatFixed1Q (keywordOverlap * 100) ++ "%."

/-- `calculateRelevance` of the simple (lexical) module. -/
def calculateRelevance (primaryText secondaryText : String) : Result :=
  let primaryKeywords := extractKeywords primaryText
  let secondaryKeywords := extractKeywords secondaryText
  let primaryEntities := extractSimpleEntities primaryText
  let secondaryEntities := extractSimpleEntities secondaryText
  let keywordOverlap := calculateOverlap primaryKeywords secondaryKeywords
  let entityOverlap := calculateOverlap primaryEntities secondaryEntities
  let relevanceScore := keywordOverlap * 0.6 + entityOverlap * 0.4
  { isRelevant := decide (relevanceScore > 0.3)
    score := relevanceScore
    explanation := generateExplanation primaryKeywords secondaryKeywords
      primaryEntities secondaryEntities keywordOverlap entityOverlap relevanceScore
    components := none }

end Simple

namespace Ner

/-!
The NER/topic module's `extractEntities` and `performTopicModeling` call the
external `compromise` and `natural` libraries (out-of-scope collaborators per
§1 of the spec); the module is embedded parametrically in their outputs.
-/

/-- The entity record produced by `extractEntities`. -/
structure Entities where
  people : List String
  places : List String
  organizations : List String
  topics : List String

/-- One TF-IDF topic entry `{ term, weight }`. -/
structure Topic where
  term : String
  weight : ℚ

/-- The object literal returned by the NER module's `calculateRelevance`:
no `components` field. -/
structure Result where
  isRelevant : Bool
  score : ℝ
  explanation : String
  components : Option (List (String × ℝ))

/-- `calculateEntityOverlap`: overlapping primary entities (counted with
multiplicity, compared case-insensitively) over the size of the
case-sensitive union set.  When both flattened lists are empty the JS code
divides 0 by 0 (NaN); Lean's convention gives 0 there. -/
def calculateEntityOverlap (primaryEntities secondaryEntities : Entities) : ℚ :=
  let allPrimaryEntities := primaryEntities.people ++ primaryEntities.places ++
    primaryEntities.organizations ++ primaryEntities.topics
  let allSecondaryEntities := secondaryEntities.people ++ secondaryEntities.places ++
    secondaryEntities.organizations ++ secondaryEntities.topics
  let overlapping := allPrimaryEntities.filter fun entity =>
    allSecondaryEntities.any fun secEntity => toLowerStr secEntity == toLowerStr entity
  let unionSize := ((allPrimaryEntities ++ allSecondaryEntities).dedup).length
  (overlapping.length : ℚ) / (unionSize : ℚ)

/-- `calculateTopicSimilarity`: `|shared terms| / Math.sqrt(|primary| * |secondary|)`
(0/0 in JS is NaN; Lean's convention gives 0 there). -/
noncomputable def calculateTopicSimilarity (primaryTopics secondaryTopics : List Topic) : ℝ :=
  let primaryTerms := primaryTopics.map Topic.term
  let secondaryTerms := secondaryTopics.map Topic.term
  let overlapping := primaryTerms.filter fun term => secondaryTerms.contains term
  (overlapping.length : ℝ) / Real.sqrt ((primaryTerms.length : ℝ) * (secondaryTerms.length : ℝ))

open scoped Classical in
/-- `generateExplanation` of the NER module. -/
noncomputable def generateExplanation (primaryEntities secondaryEntities : Entities)
    (primaryTopics secondaryTopics : List Topic)
    (entityOverlap : ℚ) (topicSimilarity relevanceScore : ℝ) : String :=
  let sharedPeople := primaryEntities.people.filter fun p =>
    secondaryEntities.people.contains p
  let sharedOrgs := primaryEntities.organizations.filter fun o =>
    secondaryEntities.organizations.contains o
  let sharedPlaces := primaryEntities.places.filter fun p =>
    secondaryEntities.places.contains p
  let sharedTopics := (primaryTopics.map Topic.term).filter fun term =>
    secondaryTopics.any fun st => st.term == term
  let explanation :=
    if relevanceScore > 0.7 then "High relevance detected. "
    else if relevanceScore > 0.3 then "Moderate relevance detected. "
    else "Low relevance detected. "
  let explanation := explanation ++
    (if sharedPeople.length > 0 then
      "Both texts mention the same people: " ++ String.intercalate ", " sharedPeople ++ ". "
     else "")
  let explanation := explanation ++
    (if sharedOrgs.length > 0 then
      "Both texts mention the same organizations: " ++
        String.intercalate ", " sharedOrgs ++ ". "
     else "")
  let explanation := explanation ++
    (if sharedPlaces.length > 0 then
      "Both texts mention the same places: " ++ String.intercalate ", " sharedPlaces ++ ". "
     else "")
  let explanation := explanation ++
    (if sharedTopics.length > 0 then
      "Both texts share topics related to: " ++ String.intercalate ", " sharedTopics ++ ". "
     else "")
  explanation ++ "Entity overlap: " ++ formatFixed1Q (entityOverlap * 100) ++ "%. " ++
    "Topic similarity: " ++ formatFixed1R (topicSimilarity * 100) ++ "%."

open scoped Classical in
/-- `calculateRelevance` of the NER/topic module, parametric in the outputs
of the external NER and topic-modeling libraries. -/
noncomputable def calculateRelevance (primaryEntities secondaryEntities : Entities)
    (primaryTopics secondaryTopics : List Topic) : Result :=
  let entityOverlap := calculateEntityOverlap primaryEntities secondaryEntities
  let topicSimilarity := calculateTopicSimilarity primaryTopics secondaryTopics
  let relevanceScore : ℝ := (entityOverlap : ℝ) * 0.6 + topicSimilarity * 0.4
  { isRelevant := if relevanceScore > 0.3 then true else false
    score := relevanceScore
    explanation := generateExplanation primaryEntities secondaryEntities
      primaryTopics secondaryTopics entityOverlap topicSimilarity relevanceScore
    components := none }

end Ner

namespace Llm

/-- The object literal returned by the LLM module's `calculateRelevance`:
all four fields, `components` present. -/
structure Result where
  isRelevant : Bool
  score : ℝ
  explanation : String
  components : Option (List (String × ℝ))

/-- `truncateText`: cap at `maxTokens * 4` characters. -/
def truncateText (text : String) (maxTokens : Nat) : String :=
  let maxChars := maxTokens * 4
  if text.length ≤ maxChars then text
  else text.take maxChars

/-- `cosineSimilarity`: throws on a length mismatch, returns 0 when either
magnitude is zero, else the normalized dot product.  The source compares
`Math.sqrt(Σ xᵢ²) === 0`, which (for exact nonnegative reals) holds iff
`Σ xᵢ² = 0`, the decidable test used here. -/
noncomputable def cosineSimilarity (vec1 vec2 : List ℚ) : Except String ℝ :=
  if vec1.length ≠ vec2.length then
    .error "Vectors must be of the same length"
  else
    let dotProduct : ℚ := (List.zipWith (· * ·) vec1 vec2).sum
    let mag1sq : ℚ := (vec1.map fun x => x * x).sum
    let mag2sq : ℚ := (vec2.map fun x => x * x).sum
    if mag1sq = 0 ∨ mag2sq = 0 then .ok 0
    else .ok ((dotProduct : ℝ) / (Real.sqrt (mag1sq : ℝ) * Real.sqrt (mag2sq : ℝ)))

/-- `calculateSemanticSimilarity`: the whole body — both embedding calls and
the cosine computation — sits in one `try`; any failure (of either external
call, or the dimension-mismatch throw of `cosineSimilarity`) lands in the
`catch`, which returns `keywordOverlap * 0.6 + entityOverlap * 0.4`.  The
external provider is the parameter `embed` (text ↦ embedding vector or
error). -/
noncomputable def calculateSemanticSimilarity (text1 text2 : String)
    (embed : String → Except String (List ℚ))
    (keywordOverlap entityOverlap : ℚ) : ℝ :=
  match embed (truncateText text1 8000), embed (truncateText text2 8000) with
  | .ok embedding1, .ok embedding2 =>
    match cosineSimilarity embedding1 embedding2 with
    | .ok similarity => similarity
    | .error _ => ((keywordOverlap * 0.6 + entityOverlap * 0.4 : ℚ) : ℝ)
  | _, _ => ((keywordOverlap * 0.6 + entityOverlap * 0.4 : ℚ) : ℝ)

open scoped Classical in
/-- `generateEnhancedExplanation` of the LLM module. -/
noncomputable def generateEnhancedExplanation (primaryKeywords secondaryKeywords
    primaryEntities secondaryEntities : List String)
    (keywordOverlap entityOverlap : ℚ) (semanticSimilarity relevanceScore : ℝ) : String :=
  let sharedKeywords := primaryKeywords.filter fun keyword =>
    secondaryKeywords.contains keyword
  let sharedEntities := primaryEntities.filter fun entity =>
    secondaryEntities.any fun secEntity => toLowerStr secEntity == toLowerStr entity
  let explanation :=
    if relevanceScore > 0.7 then "High relevance detected. "
    else if relevanceScore > 0.35 then "Moderate relevance detected. "
    else "Low relevance detected. "
  let explanation := explanation ++
    (if semanticSimilarity > 0.8 then "The texts are highly semantically similar. "
     else if semanticSimilarity > 0.5 then "The texts share moderate semantic similarity. "
     else if semanticSimilarity > 0.3 then "The texts have some semantic relationship. "
     else "The texts have limited semantic connection. ")
  let explanation := explanation ++
    (if sharedEntities.length > 0 then
      "Both texts mention the same entities: " ++
        String.intercalate ", " (sharedEntities.take 5) ++
        (if sharedEntities.length > 5 then "..." else "") ++ ". "
     else "")
  let explanation := explanation ++
    (if sharedKeywords.length > 0 then
      "Both texts share keywords related to: " ++
        String.intercalate ", " (sharedKeywords.take 7) ++
        (if sharedKeywords.length > 7 then "..." else "") ++ ". "
     else "")
  explanation ++ "Entity overlap: " ++ formatFixed1Q (entityOverlap * 100) ++ "%. " ++
    "Keyword similarity: " ++ formatFixed1Q (keywordOverlap * 100) ++ "%. " ++
    "Semantic similarity: " ++ formatFixed1R (semanticSimilarity * 100) ++ "%."

open scoped Classical in
/-- `calculateRelevance` of the LLM-enhanced module, parametric in the
external embedding provider (the OpenAI client built from the API key). -/
noncomputable def calculateRelevance (primaryText secondaryText : String)
    (embed : String → Except String (List ℚ)) : Result :=
  let primaryKeywords := extractKeywords primaryText
  let secondaryKeywords := extractKeywords secondaryText
  let primaryEntities := extractSimpleEntities primaryText
  let secondaryEntities := extractSimpleEntities secondaryText
  let keywordOverlap := calculateOverlap primaryKeywords secondaryKeywords
  let entityOverlap := calculateOverlap primaryEntities secondaryEntities
  let semanticSimilarity :=
    calculateSemanticSimilarity primaryText secondaryText embed keywordOverlap entityOverlap
  let relevanceScore : ℝ :=
    (keywordOverlap : ℝ) * 0.3 + (entityOverlap : ℝ) * 0.2 + semanticSimilarity * 0.5
  { isRelevant := if relevanceScore > 0.35 then true else false
    score := relevanceScore
    explanation := generateEnhancedExplanation primaryKeywords secondaryKeywords
      primaryEntities secondaryEntities keywordOverlap entityOverlap
      semanticSimilarity relevanceScore
    components := some
      [("keywordOverlap", (keywordOverlap : ℝ)),
       ("entityOverlap", (entityOverlap : ℝ)),
       ("semanticSimilarity", semanticSimilarity)] }

end Llm

/-! ### Concrete inputs used by scenario theorems, counterexamples and
witnesses -/

/-- Scenario 1, primary text. -/
def scenario1Primary : String :=
  "Sarah Johnson approved the AWS budget of $5,000 on March 3rd, 2025."

/-- Scenario 1, secondary text. -/
def scenario1Secondary : String :=
  "The AWS budget review happens after Sarah Johnson signs off."

/-- An embedding provider that always fails (network/auth/rate-limit). -/
def embedFailing : String → Except String (List ℚ) :=
  fun _ => .error "network error"

/-- An embedding provider returning vectors of different dimensions for the
two texts `"a"` and `"b"`. -/
def embedMismatch : String → Except String (List ℚ) :=
  fun t => if t = "a" then .ok [1] else .ok [1, 2]

/-- Entity-library output in which the primary text mentions the same person
twice (e.g. the `compromise` people matcher reports every occurrence). -/
def dupEntities : Ner.Entities :=
  ⟨["Sarah Johnson", "Sarah Johnson"], [], [], []⟩

/-- Entity-library output with a single person mention. -/
def oneEntity : Ner.Entities :=
  ⟨["Sarah Johnson"], [], [], []⟩

/-- A one-term topic list. -/
def topicsCloud : List Ner.Topic := [⟨"cloud", 1⟩]

/-- A disjoint one-term topic list. -/
def topicsGrid : List Ner.Topic := [⟨"grid", 1⟩]

/-- Value of a key in the frequency association list (`wordFrequency[w] || 0`). -/
def lookup0 (l : List (String × Nat)) (w : String) : Nat :=
  match l.find? (fun p => p.1 == w) with
  | some p => p.2
  | none => 0

/-! ## Helper lemmas -/

/-- `calculateOverlap` against the specification's wording: 0 when either
array is empty, otherwise the Jaccard similarity of the two finite sets of
lowercased elements. -/
theorem calculateOverlap_characterization (a b : List String) :
    calculateOverlap a b =
      if a = [] ∨ b = [] then 0
      else jaccardSpec (a.map toLowerStr).toFinset (b.map toLowerStr).toFinset := by
  by_cases h : a = [] ∨ b = []
  · rw [if_pos h]
    unfold calculateOverlap
    rw [if_pos]
    rcases h with h | h <;> simp [h]
  · rw [if_neg h]
    unfold calculateOverlap jaccardSpec
    rw [if_neg (by simpa [List.length_eq_zero] using h)]
    set la := a.map toLowerStr with hla
    set lb := b.map toLowerStr with hlb
    have hnum : (la.dedup.filter fun item => lb.dedup.contains item).length
        = (la.toFinset ∩ lb.toFinset).card := by
      have hnd : (la.dedup.filter fun item => lb.dedup.contains item).Nodup :=
        (la.nodup_dedup).filter _
      rw [← List.toFinset_card_of_nodup hnd]
      congr 1
      ext x
      simp [List.mem_filter, List.mem_dedup, List.contains]
    have hden : ((la.dedup ++ lb.dedup).dedup).length
        = (la.toFinset ∪ lb.toFinset).card := by
      rw [← List.card_toFinset]
      congr 1
      ext x
      simp [List.mem_dedup]
    simp only [hnum, hden]

/-! ### Frequency-mapping lemmas

JS object semantics for `wordFrequency`: keys are distinct, enumerate in
insertion order, and each key's value is the number of occurrences of the
token processed so far. -/

theorem bump_keys (acc : List (String × Nat)) (w : String) :
    (bump acc w).map Prod.fst =
      if acc.any (fun p => p.1 == w) then acc.map Prod.fst
      else acc.map Prod.fst ++ [w] := by
  unfold bump
  by_cases h : acc.any fun p => p.1 == w
  · rw [if_pos h, if_pos h, List.map_map]
    refine List.map_congr_left fun p _ => ?_
    by_cases hp : p.1 = w <;> simp [hp]
  · rw [if_neg h, if_neg h]
    simp

theorem bump_mem_keys (acc : List (String × Nat)) (w v : String) :
    v ∈ (bump acc w).map Prod.fst ↔ v ∈ acc.map Prod.fst ∨ v = w := by
  rw [bump_keys]
  by_cases h : acc.any fun p => p.1 == w
  · rw [if_pos h]
    constructor
    · exact fun hv => Or.inl hv
    · rintro (hv | rfl)
      · exact hv
      · simp only [List.any_eq_true, beq_iff_eq] at h
        obtain ⟨q, hq, hqw⟩ := h
        exact List.mem_map.mpr ⟨q, hq, hqw⟩
  · rw [if_neg h]
    simp

theorem bump_keys_nodup (acc : List (String × Nat)) (w : String)
    (h : (acc.map Prod.fst).Nodup) : ((bump acc w).map Prod.fst).Nodup := by
  rw [bump_keys]
  by_cases hany : acc.any fun p => p.1 == w
  · rwa [if_pos hany]
  · rw [if_neg hany]
    refine List.Nodup.append h (List.nodup_singleton w) ?_
    intro v hv hv1
    simp only [List.mem_singleton] at hv1
    subst hv1
    simp only [List.any_eq_true, beq_iff_eq] at hany
    obtain ⟨q, hq, hqv⟩ := List.mem_map.mp hv
    exact hany ⟨q, hq, hqv⟩

theorem lookup0_cons (q : String × Nat) (l : List (String × Nat)) (v : String) :
    lookup0 (q :: l) v = if q.1 == v then q.2 else lookup0 l v := by
  unfold lookup0
  cases h : (q.1 == v) <;> simp [List.find?_cons, h]

theorem lookup0_map_ne (acc : List (String × Nat)) (w v : String) (hvw : v ≠ w) :
    lookup0 (acc.map fun p => if p.1 == w then (p.1, p.2 + 1) else p) v =
      lookup0 acc v := by
  induction acc with
  | nil => rfl
  | cons q acc ih =>
    rw [List.map_cons, lookup0_cons, lookup0_cons]
    have hfst : (if q.1 == w then (q.1, q.2 + 1) else q).1 = q.1 := by
      by_cases hq : (q.1 == w) = true <;> simp [hq]
    rw [hfst]
    by_cases hqv : (q.1 == v) = true
    · rw [if_pos hqv, if_pos hqv]
      have hq : (q.1 == w) = false := by
        have : q.1 ≠ w := fun hq => hvw ((beq_iff_eq.mp hqv).symm.trans hq)
        simpa using this
      simp [hq]
    · rw [if_neg hqv, if_neg hqv, ih]

theorem lookup0_map_self (acc : List (String × Nat)) (w : String)
    (h : (acc.any fun p => p.1 == w) = true) :
    lookup0 (acc.map fun p => if p.1 == w then (p.1, p.2 + 1) else p) w =
      lookup0 acc w + 1 := by
  induction acc with
  | nil => simp at h
  | cons q acc ih =>
    rw [List.map_cons, lookup0_cons, lookup0_cons]
    have hfst : (if q.1 == w then (q.1, q.2 + 1) else q).1 = q.1 := by
      by_cases hq : (q.1 == w) = true <;> simp [hq]
    rw [hfst]
    by_cases hqw : (q.1 == w) = true
    · rw [if_pos hqw, if_pos hqw]
      simp [hqw]
    · rw [if_neg hqw, if_neg hqw]
      rw [Bool.not_eq_true] at hqw
      simp only [List.any_cons, hqw, Bool.false_or] at h
      exact ih h

theorem lookup0_not_mem (acc : List (String × Nat)) (w : String)
    (h : (acc.any fun p => p.1 == w) = false) : lookup0 acc w = 0 := by
  induction acc with
  | nil => rfl
  | cons q acc ih =>
    simp only [List.any_cons, Bool.or_eq_false_iff] at h
    rw [lookup0_cons, if_neg (by simp [h.1]), ih h.2]

theorem lookup0_append_single_ne (acc : List (String × Nat)) (w v : String)
    (hvw : v ≠ w) : lookup0 (acc ++ [(w, 1)]) v = lookup0 acc v := by
  induction acc with
  | nil =>
    simp only [List.nil_append]
    rw [lookup0_cons, if_neg (by simp [Ne.symm hvw])]
  | cons q acc ih =>
    rw [List.cons_append, lookup0_cons, lookup0_cons]
    by_cases hqv : q.1 == v
    · rw [if_pos hqv, if_pos hqv]
    · rw [if_neg hqv, if_neg hqv, ih]

theorem lookup0_append_single_self (acc : List (String × Nat)) (w : String)
    (h : (acc.any fun p => p.1 == w) = false) :
    lookup0 (acc ++ [(w, 1)]) w = 1 := by
  induction acc with
  | nil =>
    simp only [List.nil_append]
    rw [lookup0_cons, if_pos (by simp)]
  | cons q acc ih =>
    simp only [List.any_cons, Bool.or_eq_false_iff] at h
    rw [List.cons_append, lookup0_cons, if_neg (by simp [h.1]), ih h.2]

theorem lookup0_bump (acc : List (String × Nat)) (w v : String) :
    lookup0 (bump acc w) v = lookup0 acc v + if v = w then 1 else 0 := by
  unfold bump
  by_cases hany : (acc.any fun p => p.1 == w) = true
  · rw [if_pos hany]
    by_cases hvw : v = w
    · subst hvw
      rw [if_pos rfl]
      exact lookup0_map_self acc v hany
    · rw [if_neg hvw, Nat.add_zero]
      exact lookup0_map_ne acc w v hvw
  · rw [if_neg hany]
    have hfalse : (acc.any fun p => p.1 == w) = false := by
      rwa [Bool.not_eq_true] at hany
    by_cases hvw : v = w
    · subst hvw
      rw [if_pos rfl, lookup0_append_single_self acc v hfalse,
        lookup0_not_mem acc v hfalse]
    · rw [if_neg hvw, Nat.add_zero]
      exact lookup0_append_single_ne acc w v hvw

theorem lookup0_foldl (ws : List String) :
    ∀ (acc : List (String × Nat)) (v : String),
      lookup0 (ws.foldl bump acc) v = lookup0 acc v + ws.count v := by
  induction ws with
  | nil => intro acc v; simp
  | cons w ws ih =>
    intro acc v
    rw [List.foldl_cons, ih (bump acc w) v, lookup0_bump]
    have : (w :: ws).count v = ws.count v + if v = w then 1 else 0 := by
      rcases eq_or_ne v w with h | h <;>
        simp [List.count_cons, h, eq_comm]
    omega

theorem foldl_bump_keys_nodup (ws : List String) :
    ∀ acc : List (String × Nat), (acc.map Prod.fst).Nodup →
      ((ws.foldl bump acc).map Prod.fst).Nodup := by
  induction ws with
  | nil => intro acc h; simpa using h
  | cons w ws ih =>
    intro acc h
    rw [List.foldl_cons]
    exact ih _ (bump_keys_nodup acc w h)

theorem foldl_bump_mem_keys (ws : List String) :
    ∀ (acc : List (String × Nat)) (v : String),
      v ∈ (ws.foldl bump acc).map Prod.fst ↔ v ∈ acc.map Prod.fst ∨ v ∈ ws := by
  induction ws with
  | nil => intro acc v; simp
  | cons w ws ih =>
    intro acc v
    rw [List.foldl_cons, ih (bump acc w) v, bump_mem_keys]
    simp only [List.mem_cons]
    tauto

theorem mem_val_eq_lookup0 (l : List (String × Nat))
    (h : (l.map Prod.fst).Nodup) :
    ∀ p ∈ l, p.2 = lookup0 l p.1 := by
  induction l with
  | nil => intro p hp; cases hp
  | cons q l ih =>
    intro p hp
    rw [List.map_cons] at h
    rcases List.mem_cons.mp hp with rfl | hp'
    · rw [lookup0_cons, if_pos (by simp)]
    · have hq : q.1 ≠ p.1 := by
        intro hqp
        exact (List.nodup_cons.mp h).1 (hqp ▸ List.mem_map.mpr ⟨p, hp', rfl⟩)
      rw [lookup0_cons, if_neg (by simpa using hq)]
      exact ih (List.nodup_cons.mp h).2 p hp'

/-- The three facts the keyword extractor needs about `wordFrequency`:
distinct keys, keys = tokens seen, values = occurrence counts. -/
theorem freqEntries_spec (ws : List String) :
    ((freqEntries ws).map Prod.fst).Nodup ∧
    (∀ v, v ∈ (freqEntries ws).map Prod.fst ↔ v ∈ ws) ∧
    (∀ p ∈ freqEntries ws, p.2 = ws.count p.1) := by
  refine ⟨foldl_bump_keys_nodup ws [] (by simp), fun v => ?_, fun p hp => ?_⟩
  · unfold freqEntries
    rw [foldl_bump_mem_keys]
    simp
  · rw [mem_val_eq_lookup0 _ (foldl_bump_keys_nodup ws [] (by simp)) p hp]
    rw [lookup0_foldl]
    simp [lookup0]

/-! ### Evaluation helpers (rational arithmetic is evaluated by `norm_num`;
the list-level computations are discharged by `decide`) -/

theorem calculateOverlap_nil_left (b : List String) : calculateOverlap [] b = 0 := by
  simp [calculateOverlap]

theorem calculateOverlap_nil_right (a : List String) : calculateOverlap a [] = 0 := by
  simp [calculateOverlap]

theorem calculateOverlap_eval (a b : List String) (m n : Nat)
    (ha : a ≠ []) (hb : b ≠ [])
    (hm : (((a.map toLowerStr).dedup).filter
        (fun item => ((b.map toLowerStr).dedup).contains item)).length = m)
    (hn : ((((a.map toLowerStr).dedup ++ (b.map toLowerStr).dedup)).dedup).length = n) :
    calculateOverlap a b = (m : ℚ) / (n : ℚ) := by
  unfold calculateOverlap
  rw [if_neg (by simp [List.length_eq_zero, ha, hb])]
  show ((((a.map toLowerStr).dedup).filter
      (fun item => ((b.map toLowerStr).dedup).contains item)).length : ℚ) /
    (((((a.map toLowerStr).dedup ++ (b.map toLowerStr).dedup)).dedup).length : ℚ) = _
  rw [hm, hn]

theorem entityOverlap_eval (pE sE : Ner.Entities) (m n : Nat)
    (hm : ((pE.people ++ pE.places ++ pE.organizations ++ pE.topics).filter
        (fun entity => (sE.people ++ sE.places ++ sE.organizations ++ sE.topics).any
          fun secEntity => toLowerStr secEntity == toLowerStr entity)).length = m)
    (hn : (((pE.people ++ pE.places ++ pE.organizations ++ pE.topics) ++
        (sE.people ++ sE.places ++ sE.organizations ++ sE.topics)).dedup).length = n) :
    Ner.calculateEntityOverlap pE sE = (m : ℚ) / (n : ℚ) := by
  unfold Ner.calculateEntityOverlap
  show (((pE.people ++ pE.places ++ pE.organizations ++ pE.topics).filter
      (fun entity => (sE.people ++ sE.places ++ sE.organizations ++ sE.topics).any
        fun secEntity => toLowerStr secEntity == toLowerStr entity)).length : ℚ) /
    ((((pE.people ++ pE.places ++ pE.organizations ++ pE.topics) ++
      (sE.people ++ sE.places ++ sE.organizations ++ sE.topics)).dedup).length : ℚ) = _
  rw [hm, hn]

/-- `(if P then true else false) = true ↔ P`, for the JS boolean results
computed from real-valued score comparisons. -/
theorem boolIf_eq_true_iff {P : Prop} [Decidable P] :
    (if P then true else false) = true ↔ P := by
  by_cases h : P <;> simp [h]

/-! ## Claim theorems -/

/-- **C6.** For every pair of string arrays, `calculateOverlap` returns 0
whenever either array is empty (including both empty), and otherwise returns
the Jaccard similarity `|A ∩ B| / |A ∪ B|` of the two sets of lowercased
elements. -/
theorem overlapJaccardContract (array1 array2 : List String) :
    calculateOverlap array1 array2 =
      if array1 = [] ∨ array2 = [] then 0
      else jaccardSpec (array1.map toLowerStr).toFinset (array2.map toLowerStr).toFinset :=
  calculateOverlap_characterization array1 array2

/-- **C10.** `calculateOverlap` has pure set semantics over lowercased
elements: for non-empty arrays, appending a duplicate copy of either
argument, or permuting either argument, leaves the result unchanged, and the
function is symmetric. -/
theorem overlapSetSemantics (a b : List String) (ha : a ≠ []) (hb : b ≠ []) :
    calculateOverlap (a ++ a) b = calculateOverlap a b ∧
    calculateOverlap a (b ++ b) = calculateOverlap a b ∧
    (∀ a', a.Perm a' → calculateOverlap a' b = calculateOverlap a b) ∧
    (∀ b', b.Perm b' → calculateOverlap a b' = calculateOverlap a b) ∧
    calculateOverlap a b = calculateOverlap b a := by
  have hne : ¬(a = [] ∨ b = []) := by
    rintro (h | h)
    exacts [ha h, hb h]
  refine ⟨?_, ?_, ?_, ?_, ?_⟩
  · rw [calculateOverlap_characterization, calculateOverlap_characterization,
      if_neg hne, if_neg (by
        rintro (h | h)
        exacts [ha (List.append_eq_nil.mp h).1, hb h])]
    have hfin : ((a ++ a).map toLowerStr).toFinset = (a.map toLowerStr).toFinset := by
      rw [List.map_append, List.toFinset_append, Finset.union_self]
    rw [hfin]
  · rw [calculateOverlap_characterization, calculateOverlap_characterization,
      if_neg hne, if_neg (by
        rintro (h | h)
        exacts [ha h, hb (List.append_eq_nil.mp h).1])]
    have hfin : ((b ++ b).map toLowerStr).toFinset = (b.map toLowerStr).toFinset := by
      rw [List.map_append, List.toFinset_append, Finset.union_self]
    rw [hfin]
  · intro a' hperm
    rw [calculateOverlap_characterization, calculateOverlap_characterization,
      if_neg hne, if_neg (by
        rintro (h | h)
        · refine ha (List.length_eq_zero.mp ?_)
          rw [hperm.length_eq, h]
          rfl
        · exact hb h)]
    rw [← List.toFinset_eq_of_perm _ _ (hperm.map toLowerStr)]
  · intro b' hperm
    rw [calculateOverlap_characterization, calculateOverlap_characterization,
      if_neg hne, if_neg (by
        rintro (h | h)
        · exact ha h
        · refine hb (List.length_eq_zero.mp ?_)
          rw [hperm.length_eq, h]
          rfl)]
    rw [← List.toFinset_eq_of_perm _ _ (hperm.map toLowerStr)]
  · rw [calculateOverlap_characterization, calculateOverlap_characterization,
      if_neg hne, if_neg (by
        rintro (h | h)
        exacts [hb h, ha h])]
    unfold jaccardSpec
    rw [Finset.inter_comm, Finset.union_comm]

/-- **C10 witness.** The set-semantics theorem at concrete inputs. -/
theorem overlapSetSemanticsWitness :
    calculateOverlap (["p", "q"] ++ ["p", "q"]) ["q", "r"] =
      calculateOverlap ["p", "q"] ["q", "r"] ∧
    calculateOverlap ["q", "p"] ["q", "r"] = calculateOverlap ["p", "q"] ["q", "r"] ∧
    calculateOverlap ["p", "q"] ["q", "r"] = calculateOverlap ["q", "r"] ["p", "q"] := by
  have h := overlapSetSemantics ["p", "q"] ["q", "r"] (by decide) (by decide)
  exact ⟨h.1, h.2.2.1 ["q", "p"] (List.Perm.swap "q" "p" []), h.2.2.2.2⟩

/-- **C1.** For every pair of input texts (and all outputs of the external
NER/topic libraries and the embedding provider), each pipeline's score is the
fixed weighted combination of its component scores, and `isRelevant` holds
exactly when the score exceeds that pipeline's threshold: lexical
`0.6·keywordOverlap + 0.4·entityOverlap`, threshold 0.3; entity/topic
`0.6·entityOverlap + 0.4·topicSimilarity`, threshold 0.3; LLM-enhanced
`0.3·keywordOverlap + 0.2·entityOverlap + 0.5·semanticSimilarity`,
threshold 0.35. -/
theorem scoreFusionThresholds (p s : String)
    (embed : String → Except String (List ℚ))
    (pE sE : Ner.Entities) (pT sT : List Ner.Topic) :
    ((Simple.calculateRelevance p s).score =
        0.6 * calculateOverlap (extractKeywords p) (extractKeywords s) +
          0.4 * calculateOverlap (extractSimpleEntities p) (extractSimpleEntities s) ∧
      ((Simple.calculateRelevance p s).isRelevant = true ↔
        (Simple.calculateRelevance p s).score > 0.3)) ∧
    ((Ner.calculateRelevance pE sE pT sT).score =
        0.6 * (Ner.calculateEntityOverlap pE sE : ℝ) +
          0.4 * Ner.calculateTopicSimilarity pT sT ∧
      ((Ner.calculateRelevance pE sE pT sT).isRelevant = true ↔
        (Ner.calculateRelevance pE sE pT sT).score > 0.3)) ∧
    ((Llm.calculateRelevance p s embed).score =
        0.3 * (calculateOverlap (extractKeywords p) (extractKeywords s) : ℝ) +
          0.2 * (calculateOverlap (extractSimpleEntities p) (extractSimpleEntities s) : ℝ) +
          0.5 * Llm.calculateSemanticSimilarity p s embed
            (calculateOverlap (extractKeywords p) (extractKeywords s))
            (calculateOverlap (extractSimpleEntities p) (extractSimpleEntities s)) ∧
      ((Llm.calculateRelevance p s embed).isRelevant = true ↔
        (Llm.calculateRelevance p s embed).score > 0.35)) := by
  refine ⟨⟨?_, ?_⟩, ⟨?_, ?_⟩, ⟨?_, ?_⟩⟩
  · simp only [Simple.calculateRelevance]
    ring
  · simp only [Simple.calculateRelevance, decide_eq_true_eq]
  · simp only [Ner.calculateRelevance]
    ring
  · simp only [Ner.calculateRelevance]
    exact boolIf_eq_true_iff
  · simp only [Llm.calculateRelevance]
    ring
  · simp only [Llm.calculateRelevance]
    exact boolIf_eq_true_iff

/-- Reduction of `calculateSemanticSimilarity` when both embedding calls
succeed but `cosineSimilarity` throws: the `catch` substitutes the fallback
blend. -/
theorem calculateSemanticSimilarity_cosine_error (p s : String)
    (embed : String → Except String (List ℚ)) (kw ent : ℚ) (v1 v2 : List ℚ)
    (e : String)
    (h1 : embed (Llm.truncateText p 8000) = .ok v1)
    (h2 : embed (Llm.truncateText s 8000) = .ok v2)
    (hc : Llm.cosineSimilarity v1 v2 = .error e) :
    Llm.calculateSemanticSimilarity p s embed kw ent =
      ((kw * 0.6 + ent * 0.4 : ℚ) : ℝ) := by
  unfold Llm.calculateSemanticSimilarity
  rw [h1, h2]
  simp only [hc]

/-- **C2.** In the LLM pipeline, if either external embedding call fails,
the semantic-similarity component is exactly
`0.6 * keywordOverlap + 0.4 * entityOverlap` computed from the lexical
overlaps, no error escapes, and `calculateRelevance` still returns a
complete result (all `components` present). -/
theorem llmProviderFailureFallback (p s : String)
    (embed : String → Except String (List ℚ)) (kw ent : ℚ)
    (h : (embed (Llm.truncateText p 8000)).isOk = false ∨
         (embed (Llm.truncateText s 8000)).isOk = false) :
    Llm.calculateSemanticSimilarity p s embed kw ent =
      ((0.6 * kw + 0.4 * ent : ℚ) : ℝ) ∧
    (Llm.calculateRelevance p s embed).components =
      some [("keywordOverlap",
              (calculateOverlap (extractKeywords p) (extractKeywords s) : ℝ)),
            ("entityOverlap",
              (calculateOverlap (extractSimpleEntities p) (extractSimpleEntities s) : ℝ)),
            ("semanticSimilarity",
              ((0.6 * calculateOverlap (extractKeywords p) (extractKeywords s) +
                  0.4 * calculateOverlap (extractSimpleEntities p) (extractSimpleEntities s) :
                  ℚ) : ℝ))] := by
  have main : ∀ kw' ent' : ℚ,
      Llm.calculateSemanticSimilarity p s embed kw' ent' =
        ((kw' * 0.6 + ent' * 0.4 : ℚ) : ℝ) := by
    intro kw' ent'
    unfold Llm.calculateSemanticSimilarity
    cases he1 : embed (Llm.truncateText p 8000) with
    | error e1 =>
      cases he2 : embed (Llm.truncateText s 8000) <;> rfl
    | ok v1 =>
      cases he2 : embed (Llm.truncateText s 8000) with
      | error e2 => rfl
      | ok v2 =>
        rw [he1, he2] at h
        simp [Except.isOk, Except.toBool] at h
  have hflip : ∀ kw' ent' : ℚ, (kw' * 0.6 + ent' * 0.4 : ℚ) = (0.6 * kw' + 0.4 * ent' : ℚ) := by
    intro kw' ent'
    ring
  refine ⟨?_, ?_⟩
  · rw [main kw ent, hflip]
  · simp only [Llm.calculateRelevance]
    rw [main, hflip]

/-- **C2 witness.** The fallback theorem applied to an always-failing
provider on the Scenario 1 texts. -/
theorem llmProviderFailureFallbackWitness :
    ((embedFailing (Llm.truncateText scenario1Primary 8000)).isOk = false ∨
      (embedFailing (Llm.truncateText scenario1Secondary 8000)).isOk = false) ∧
    Llm.calculateSemanticSimilarity scenario1Primary scenario1Secondary embedFailing
        (1 / 2) (1 / 4) = ((0.6 * (1 / 2) + 0.4 * (1 / 4) : ℚ) : ℝ) :=
  ⟨Or.inl rfl,
    (llmProviderFailureFallback scenario1Primary scenario1Secondary embedFailing
      (1 / 2) (1 / 4) (Or.inl rfl)).1⟩

/-- **C3 counterexample.** With provider vectors of different lengths, the
dimension-mismatch error thrown by `cosineSimilarity` is caught inside
`calculateSemanticSimilarity` and converted into the fallback score
`0.6 * keywordOverlap + 0.4 * entityOverlap` (here `0.6`); it does not
propagate to the caller, contrary to the claim. -/
theorem dimensionMismatchSwallowedCex :
    Llm.cosineSimilarity [1] [1, 2] = .error "Vectors must be of the same length" ∧
    Llm.calculateSemanticSimilarity "a" "b" embedMismatch 1 0 = ((0.6 : ℚ) : ℝ) := by
  have hcos : Llm.cosineSimilarity [1] [(1 : ℚ), 2] =
      .error "Vectors must be of the same length" := by
    unfold Llm.cosineSimilarity
    rw [if_pos (by decide)]
  refine ⟨hcos, ?_⟩
  have h := calculateSemanticSimilarity_cosine_error "a" "b" embedMismatch 1 0
    [1] [1, 2] "Vectors must be of the same length" rfl rfl hcos
  rw [h]
  norm_num

/-- **C3 amended.** A dimension mismatch makes `cosineSimilarity` fail, but
`calculateSemanticSimilarity` catches that failure and substitutes the
fallback `0.6 * keywordOverlap + 0.4 * entityOverlap` rather than
propagating it; for equal-length vectors with either vector of zero
magnitude the cosine similarity is 0. -/
theorem dimensionMismatchCaughtAmended :
    (∀ v1 v2 : List ℚ, v1.length ≠ v2.length →
      Llm.cosineSimilarity v1 v2 = .error "Vectors must be of the same length") ∧
    (∀ (p s : String) (embed : String → Except String (List ℚ)) (kw ent : ℚ)
        (v1 v2 : List ℚ),
      embed (Llm.truncateText p 8000) = .ok v1 →
      embed (Llm.truncateText s 8000) = .ok v2 →
      v1.length ≠ v2.length →
      Llm.calculateSemanticSimilarity p s embed kw ent =
        ((kw * 0.6 + ent * 0.4 : ℚ) : ℝ)) ∧
    (∀ v1 v2 : List ℚ, v1.length = v2.length →
      ((v1.map fun x => x * x).sum = 0 ∨ (v2.map fun x => x * x).sum = 0) →
      Llm.cosineSimilarity v1 v2 = .ok 0) := by
  have hmismatch : ∀ v1 v2 : List ℚ, v1.length ≠ v2.length →
      Llm.cosineSimilarity v1 v2 = .error "Vectors must be of the same length" := by
    intro v1 v2 h
    unfold Llm.cosineSimilarity
    rw [if_pos h]
  refine ⟨hmismatch, ?_, ?_⟩
  · intro p s embed kw ent v1 v2 h1 h2 hlen
    exact calculateSemanticSimilarity_cosine_error p s embed kw ent v1 v2 _
      h1 h2 (hmismatch v1 v2 hlen)
  · intro v1 v2 hlen hzero
    unfold Llm.cosineSimilarity
    rw [if_neg (by simpa using hlen)]
    show (if (v1.map fun x => x * x).sum = 0 ∨ (v2.map fun x => x * x).sum = 0 then
        Except.ok 0 else _) = Except.ok 0
    rw [if_pos hzero]

/-- **C3 amended witness.** The amended theorem at concrete vectors. -/
theorem dimensionMismatchCaughtAmendedWitness :
    Llm.cosineSimilarity [2] [2, 3] = .error "Vectors must be of the same length" ∧
    Llm.calculateSemanticSimilarity "a" "b" embedMismatch (1 / 2) (1 / 2) =
      ((1 / 2 * 0.6 + 1 / 2 * 0.4 : ℚ) : ℝ) ∧
    Llm.cosineSimilarity [0] [0] = .ok 0 :=
  ⟨dimensionMismatchCaughtAmended.1 [2] [2, 3] (by decide),
   dimensionMismatchCaughtAmended.2.1 "a" "b" embedMismatch (1 / 2) (1 / 2)
     [1] [1, 2] rfl rfl (by decide),
   dimensionMismatchCaughtAmended.2.2 [0] [0] rfl (Or.inl (by simp))⟩

/-- **C4 counterexample.** With both texts empty, the lexical
`calculateRelevance` does not fail: it runs the full scoring pipeline and
returns a normal result with score 0 — no `InputError` exists anywhere in
the scoring code. -/
theorem emptyInputScoredCex :
    (Simple.calculateRelevance "" "").score = 0 ∧
    (Simple.calculateRelevance "" "").isRelevant = false := by
  have hk : extractKeywords "" = [] := by decide
  have he : extractSimpleEntities "" = [] := by decide
  constructor
  · simp only [Simple.calculateRelevance, hk, he, calculateOverlap_nil_left]
    norm_num
  · simp only [Simple.calculateRelevance, hk, he, calculateOverlap_nil_left]
    rw [decide_eq_false_iff_not]
    norm_num

/-- **C4 amended.** The scoring functions perform no input validation: on an
empty text, extraction yields empty keyword/entity lists, the overlaps are 0,
and the lexical `calculateRelevance` returns a normal result with score 0 and
`isRelevant = false`; the LLM pipeline likewise still returns a full result.
Any `InputError` for empty/missing text would have to be raised outside the
scoring core (at the HTTP boundary, which is not part of it). -/
theorem emptyInputNoValidationAmended (s : String)
    (embed : String → Except String (List ℚ)) :
    extractKeywords "" = [] ∧ extractSimpleEntities "" = [] ∧
    (Simple.calculateRelevance "" s).score = 0 ∧
    (Simple.calculateRelevance "" s).isRelevant = false ∧
    (Simple.calculateRelevance s "").score = 0 ∧
    (Simple.calculateRelevance s "").isRelevant = false ∧
    ((Llm.calculateRelevance "" s embed).components).isSome = true := by
  have hk : extractKeywords "" = [] := by decide
  have he : extractSimpleEntities "" = [] := by decide
  refine ⟨hk, he, ?_, ?_, ?_, ?_, rfl⟩
  · simp only [Simple.calculateRelevance, hk, he, calculateOverlap_nil_left]
    norm_num
  · simp only [Simple.calculateRelevance, hk, he, calculateOverlap_nil_left]
    rw [decide_eq_false_iff_not]
    norm_num
  · simp only [Simple.calculateRelevance, hk, he, calculateOverlap_nil_right]
    norm_num
  · simp only [Simple.calculateRelevance, hk, he, calculateOverlap_nil_right]
    rw [decide_eq_false_iff_not]
    norm_num

/-- **C5 (code bug).** `calculateEntityOverlap` counts overlapping primary
entities with multiplicity while sizing the union as a set, so duplicated
entity mentions push it above 1 — contradicting its own doc comment
"Overlap score (0-1)" and the claim `0 ≤ score ≤ 1`: with the person
mentioned twice in the primary entity list, the overlap is 2 and the
entity/topic pipeline score is 1.2 > 1. -/
theorem entityOverlapExceedsOne :
    Ner.calculateEntityOverlap dupEntities oneEntity = 2 ∧
    (Ner.calculateRelevance dupEntities oneEntity topicsCloud topicsGrid).score = 1.2 ∧
    ¬((Ner.calculateRelevance dupEntities oneEntity topicsCloud topicsGrid).score ≤ 1) := by
  have h1 : Ner.calculateEntityOverlap dupEntities oneEntity = 2 := by
    rw [entityOverlap_eval dupEntities oneEntity 2 1 (by decide) (by decide)]
    norm_num
  have h2 : Ner.calculateTopicSimilarity topicsCloud topicsGrid = 0 := by
    have hlen : ((topicsCloud.map Ner.Topic.term).filter fun term =>
        (topicsGrid.map Ner.Topic.term).contains term).length = 0 := by decide
    unfold Ner.calculateTopicSimilarity
    show (((topicsCloud.map Ner.Topic.term).filter fun term =>
        (topicsGrid.map Ner.Topic.term).contains term).length : ℝ) /
      Real.sqrt (((topicsCloud.map Ner.Topic.term).length : ℝ) *
        ((topicsGrid.map Ner.Topic.term).length : ℝ)) = 0
    rw [hlen]
    simp
  have hscore : (Ner.calculateRelevance dupEntities oneEntity topicsCloud topicsGrid).score
      = 1.2 := by
    simp only [Ner.calculateRelevance]
    rw [h1, h2]
    norm_num
  exact ⟨h1, hscore, by rw [hscore]; norm_num⟩

/-- `Object.entries` enumerates a permutation of the created properties. -/
theorem jsEntries_perm (l : List (String × Nat)) : (jsEntries l).Perm l := by
  unfold jsEntries
  exact ((List.perm_insertionSort numKeyLe _).append (List.Perm.refl _)).trans
    (List.filter_append_perm _ l)

/-- **C7 counterexample.** Equal-frequency tokens do not appear in
first-seen (insertion) order of the frequency mapping: for the text
`"abc 365"` the mapping is created as `abc` then `365`, but `Object.entries`
promotes the array-index key `"365"` ahead of `"abc"`, so `extractKeywords`
returns `["365", "abc"]`, not the first-seen `["abc", "365"]`. -/
theorem keywordTieOrderCex :
    freqEntries (keywordsOf "abc 365") = [("abc", 1), ("365", 1)] ∧
    extractKeywords "abc 365" = ["365", "abc"] := by
  constructor <;> decide

/-- **C7 amended.** `extractKeywords` returns at most 15 tokens, exactly the
keys of the first-15 prefix of the stably-sorted `Object.entries` list of
the frequency mapping, ordered by descending occurrence count; tokens with
equal frequency appear in the ECMAScript enumeration order of the mapping —
array-index keys first in ascending numeric order, then the remaining keys
in first-seen (creation) order.  The enumerated entries are a permutation of
the created entries: distinct keys, keys = the cleaned tokens, values = the
occurrence counts. -/
theorem extractKeywordsRankingAmended (t : String) :
    (extractKeywords t).length ≤ 15 ∧
    extractKeywords t =
      ((List.insertionSort freqGe (jsEntries (freqEntries (keywordsOf t)))).take 15).map
        Prod.fst ∧
    (jsEntries (freqEntries (keywordsOf t))).Perm (freqEntries (keywordsOf t)) ∧
    ((jsEntries (freqEntries (keywordsOf t))).map Prod.fst).Nodup ∧
    (∀ v, v ∈ (jsEntries (freqEntries (keywordsOf t))).map Prod.fst ↔ v ∈ keywordsOf t) ∧
    (∀ p ∈ jsEntries (freqEntries (keywordsOf t)), p.2 = (keywordsOf t).count p.1) ∧
    List.Sorted numKeyLe
      (List.insertionSort numKeyLe
        ((freqEntries (keywordsOf t)).filter fun p => isArrayIndex p.1)) ∧
    ((freqEntries (keywordsOf t)).filter fun p => !isArrayIndex p.1).Sublist
      (freqEntries (keywordsOf t)) ∧
    List.Sorted freqGe
      (List.insertionSort freqGe (jsEntries (freqEntries (keywordsOf t)))) ∧
    (∀ a b : String × Nat, a.2 = b.2 →
      [a, b].Sublist (jsEntries (freqEntries (keywordsOf t))) →
      [a, b].Sublist
        (List.insertionSort freqGe (jsEntries (freqEntries (keywordsOf t))))) := by
  obtain ⟨h1, h2, h3⟩ := freqEntries_spec (keywordsOf t)
  have hperm := jsEntries_perm (freqEntries (keywordsOf t))
  refine ⟨?_, rfl, hperm, ?_, ?_, ?_, List.sorted_insertionSort numKeyLe _,
    List.filter_sublist _, List.sorted_insertionSort freqGe _, ?_⟩
  · simp only [extractKeywords, List.length_map, List.length_take]
    omega
  · exact (hperm.map Prod.fst).nodup_iff.mpr h1
  · intro v
    rw [(hperm.map Prod.fst).mem_iff]
    exact h2 v
  · intro p hp
    exact h3 p (hperm.mem_iff.mp hp)
  · intro a b hab hsub
    exact List.pair_sublist_insertionSort (le_of_eq hab.symm) hsub

/-- **C7 amended witness.** The amended ranking theorem at a concrete text
with an equal-frequency tie among non-numeric tokens. -/
theorem extractKeywordsRankingAmendedWitness :
    (extractKeywords "red wolf red wolf blue").length ≤ 15 ∧
    [("red", 2), ("wolf", 2)].Sublist
      (List.insertionSort freqGe
        (jsEntries (freqEntries (keywordsOf "red wolf red wolf blue")))) :=
  ⟨(extractKeywordsRankingAmended "red wolf red wolf blue").1,
   (extractKeywordsRankingAmended "red wolf red wolf blue").2.2.2.2.2.2.2.2.2
     ("red", 2) ("wolf", 2) rfl (by decide)⟩

/-- **C8.** Scenario 1: on the two concrete texts, the lexical pipeline
extracts the entity "Sarah Johnson" and the keywords "aws"/"budget" from
both, both overlaps are positive, and the score exceeds 0.3 so the texts are
judged relevant. -/
theorem scenarioOneLexical :
    "Sarah Johnson" ∈ extractSimpleEntities scenario1Primary ∧
    "Sarah Johnson" ∈ extractSimpleEntities scenario1Secondary ∧
    "aws" ∈ extractKeywords scenario1Primary ∧
    "budget" ∈ extractKeywords scenario1Primary ∧
    "aws" ∈ extractKeywords scenario1Secondary ∧
    "budget" ∈ extractKeywords scenario1Secondary ∧
    calculateOverlap (extractSimpleEntities scenario1Primary)
      (extractSimpleEntities scenario1Secondary) > 0 ∧
    calculateOverlap (extractKeywords scenario1Primary)
      (extractKeywords scenario1Secondary) > 0 ∧
    (Simple.calculateRelevance scenario1Primary scenario1Secondary).score > 0.3 ∧
    (Simple.calculateRelevance scenario1Primary scenario1Secondary).isRelevant = true := by
  have hkP : extractKeywords scenario1Primary =
      ["2025", "5000", "sarah", "johnson", "approved", "aws", "budget", "march",
       "3rd"] := by decide
  have hkS : extractKeywords scenario1Secondary =
      ["aws", "budget", "review", "happens", "after", "sarah", "johnson",
       "signs"] := by decide
  have heP : extractSimpleEntities scenario1Primary =
      ["Sarah Johnson", "March 3rd, 2025", "$5,000"] := by decide
  have heS : extractSimpleEntities scenario1Secondary = ["Sarah Johnson"] := by decide
  have hent : calculateOverlap (extractSimpleEntities scenario1Primary)
      (extractSimpleEntities scenario1Secondary) = ((1 : Nat) : ℚ) / ((3 : Nat) : ℚ) := by
    rw [heP, heS]
    exact calculateOverlap_eval _ _ 1 3 (by decide) (by decide) (by decide) (by decide)
  have hkw : calculateOverlap (extractKeywords scenario1Primary)
      (extractKeywords scenario1Secondary) = ((4 : Nat) : ℚ) / ((13 : Nat) : ℚ) := by
    rw [hkP, hkS]
    exact calculateOverlap_eval _ _ 4 13 (by decide) (by decide) (by decide) (by decide)
  refine ⟨by rw [heP]; decide, by rw [heS]; decide, by rw [hkP]; decide,
    by rw [hkP]; decide, by rw [hkS]; decide, by rw [hkS]; decide,
    by rw [hent]; norm_num, by rw [hkw]; norm_num, ?_, ?_⟩
  · simp only [Simple.calculateRelevance]
    rw [hkw, hent]
    norm_num
  · simp only [Simple.calculateRelevance]
    rw [decide_eq_true_eq, hkw, hent]
    norm_num

/-- **C9 counterexample.** The simple (lexical) pipeline's result object has
no `components` field (reading it yields `undefined`), so not every
successful `calculateRelevance` result carries all four `RelevanceResult`
fields. -/
theorem simpleResultNoComponentsCex :
    (Simple.calculateRelevance "a" "b").components = none := rfl

/-- **C9 amended.** Every successful call returns `isRelevant` (boolean),
`score` and `explanation`; the `components` sub-score mapping is present only
in the LLM-enhanced pipeline's result (keywordOverlap, entityOverlap,
semanticSimilarity) — the lexical and entity/topic results omit it. -/
theorem componentsOnlyInLlmAmended (p s : String)
    (embed : String → Except String (List ℚ))
    (pE sE : Ner.Entities) (pT sT : List Ner.Topic) :
    (Simple.calculateRelevance p s).components = none ∧
    (Ner.calculateRelevance pE sE pT sT).components = none ∧
    (Llm.calculateRelevance p s embed).components =
      some [("keywordOverlap",
              (calculateOverlap (extractKeywords p) (extractKeywords s) : ℝ)),
            ("entityOverlap",
              (calculateOverlap (extractSimpleEntities p) (extractSimpleEntities s) : ℝ)),
            ("semanticSimilarity",
              Llm.calculateSemanticSimilarity p s embed
                (calculateOverlap (extractKeywords p) (extractKeywords s))
                (calculateOverlap (extractSimpleEntities p) (extractSimpleEntities s)))] :=
  ⟨rfl, rfl, rfl⟩

end RelevanceDetector
